import Mathlib

/-!
# ComBase: descriptor lifecycle and receive loop

A shallow embedding of `sp2_hw/hardware_interface/ComBase.hpp`.

* The object is a record of its data members; every member function is a
  function from the record (and the outcomes of the system calls it issues)
  to the new record, the value returned and the list of calls issued.
* `openSocket` is pure virtual and implemented outside this header, so its
  outcome (the value it leaves in `socket_fd_` and the boolean it returns)
  is an input of `open`.
* `std::thread read_thread(...)` is recorded as the call `Call.thread_start`.
  The local handle is still joinable when it is destroyed at `return true`, so
  its destructor calls `std::terminate` (`Call.terminate`): on that path
  `open` does not return and the calling thread issues nothing further.  The
  body of the thread is the function `receiver_thread_`, run on a script of
  `epoll_wait`/`recv` outcomes.
* `reception_handler_ == nullptr` is an operator of Boost, which is not part
  of the sources; its value on an empty function object is an input of `open`
  (`OpenEnv.empty_eq_null`).  On a non-empty one it is false.
* The `events_` buffer is written by `epoll_wait` and read in the same loop
  iteration only, so it is carried by the outcome of the wait.
* Member names are kept; `open` is a reserved word and is written `open_`.
-/

namespace Sp2Hw

/-! ## Data model -/

/-- Capacity of the event buffer handed to `epoll_wait` (`#define MAX_EVENTS 10`). -/
def MAX_EVENTS : Nat := 10

/-- A value of the frame type `ComProtocolT`, as its `sizeof(ComProtocolT)` bytes. -/
abbrev Frame := List Nat

/-- Identity of a callable stored in `reception_handler_`. -/
abbrev Handler := Nat

/-- The `errno` value `EAGAIN` (equal to `EWOULDBLOCK` on Linux). -/
def EAGAIN : Nat := 11

/-- The `errno` value `ECONNRESET`. -/
def ECONNRESET : Nat := 104

/-- Calls leaving the class: system calls, the virtual `openSocket`, the thread
constructor, `std::terminate` and invocations of the registered handler. -/
inductive Call where
  | openSocket
  | epoll_create1
  | epoll_ctl_add (epfd fd : Int)
  | epoll_ctl_del (epfd fd : Int)
  | close (fd : Int)
  | thread_start
  | terminate
  | epoll_wait (epfd : Int)
  | recv (fd : Int)
  | handler (h : Handler) (frame : Frame)
  deriving DecidableEq

/-- Data members of `ComBase<ComProtocolT>`.  `reception_handler_ = none` is the
empty `boost::function`. -/
structure ComBase where
  socket_fd_ : Int
  interface_name_ : String
  epoll_fd_ : Int
  receiver_thread_running_ : Bool
  terminate_receiver_thread_ : Bool
  reception_handler_ : Option Handler
  deriving DecidableEq

/-- Constructor `ComBase(const std::string &interface)` with the in-class
member initialisers. -/
def construct (interface : String) : ComBase :=
  { socket_fd_ := -1
    interface_name_ := interface
    epoll_fd_ := -1
    receiver_thread_running_ := false
    terminate_receiver_thread_ := false
    reception_handler_ := none }

/-- Constructor `ComBase(const std::string &interface, reception_handler)`. -/
def constructWithHandler (interface : String) (reception_handler : Option Handler) : ComBase :=
  { socket_fd_ := -1
    interface_name_ := interface
    epoll_fd_ := -1
    receiver_thread_running_ := false
    terminate_receiver_thread_ := false
    reception_handler_ := reception_handler }

/-- Member `setInterfaceName`. -/
def setInterfaceName (s : ComBase) (interface : String) : ComBase :=
  { s with interface_name_ := interface }

/-- Member `passRecptionHandler`. -/
def passRecptionHandler (s : ComBase) (reception_handler : Option Handler) : ComBase :=
  { s with reception_handler_ := reception_handler }

/-- Member `isOpen`:
`socket_fd_ != -1 && epoll_fd_ != -1 && receiver_thread_running_ != 1`. -/
def isOpen (s : ComBase) : Bool :=
  decide (s.socket_fd_ ≠ -1) && decide (s.epoll_fd_ ≠ -1) && !s.receiver_thread_running_

/-! ## open -/

/-- Outcomes of the calls one `open()` may issue. -/
structure OpenEnv where
  /-- value the subclass `openSocket` leaves in `socket_fd_` -/
  sock_fd : Int
  /-- return value of `openSocket` -/
  sock_ok : Bool
  /-- return value of `epoll_create1(0)` -/
  epoll_create1 : Int
  /-- return value of `epoll_ctl(epoll_fd_, EPOLL_CTL_ADD, ...)`, zero on success -/
  epoll_ctl : Int
  /-- value of `reception_handler_ == nullptr` when `reception_handler_` is empty -/
  empty_eq_null : Bool
  deriving DecidableEq

/-- Result of a member function returning `bool` that always returns. -/
structure BoolResult where
  ret : Bool
  state : ComBase
  calls : List Call
  deriving DecidableEq

/-- Result of `open`: `ret = none` when the call does not return because
`std::terminate` was called. -/
structure OpenResult where
  ret : Option Bool
  state : ComBase
  calls : List Call
  deriving DecidableEq

/-- Member `openEpoll`. -/
def openEpoll (s : ComBase) (env : OpenEnv) : BoolResult :=
  if s.socket_fd_ = -1 then
    { ret := false, state := s, calls := [Call.close s.socket_fd_] }
  else
    let s1 : ComBase := { s with epoll_fd_ := env.epoll_create1 }
    if s1.epoll_fd_ = -1 then
      { ret := false, state := s1, calls := [Call.epoll_create1] }
    else if env.epoll_ctl ≠ 0 then
      { ret := false, state := s1
        calls := [Call.epoll_create1, Call.epoll_ctl_add s1.epoll_fd_ s1.socket_fd_] }
    else
      { ret := true, state := s1
        calls := [Call.epoll_create1, Call.epoll_ctl_add s1.epoll_fd_ s1.socket_fd_] }

/-- The virtual `openSocket`, by its outcome: it stores a descriptor value in the
protected member `socket_fd_` and reports success or failure. -/
def openSocket (s : ComBase) (env : OpenEnv) : BoolResult :=
  { ret := env.sock_ok, state := { s with socket_fd_ := env.sock_fd }, calls := [Call.openSocket] }

/-- The test `reception_handler_ == nullptr`. -/
def handlerIsNull (s : ComBase) (env : OpenEnv) : Bool :=
  match s.reception_handler_ with
  | none => env.empty_eq_null
  | some _ => false

/-- Member `open`.  The conjunction `openSocket() && openEpoll()` short-circuits.
After both succeed the thread is constructed and, at `return true`, the
joinable local `read_thread` is destroyed: `std::terminate` is called and the
call does not return. -/
def open_ (s : ComBase) (env : OpenEnv) : OpenResult :=
  if handlerIsNull s env then
    { ret := some false, state := s, calls := [] }
  else
    let r1 := openSocket s env
    if r1.ret then
      let r2 := openEpoll r1.state env
      if r2.ret then
        { ret := none, state := r2.state
          calls := r1.calls ++ r2.calls ++ [Call.thread_start, Call.terminate] }
      else
        { ret := some false, state := r2.state, calls := r1.calls ++ r2.calls }
    else
      { ret := some false, state := r1.state, calls := r1.calls }

/-! ## close and the destructor -/

/-- Result of a member function returning `void`; `returned = false` when the
call never returns. -/
structure CloseResult where
  returned : Bool
  state : ComBase
  calls : List Call
  deriving DecidableEq

/-- Member `close`.  The store to `terminate_receiver_thread_` comes first.  The
spin `while (receiver_thread_running_);` is left only when the flag reads
false; no statement of the class stores false to it, so a call that reads true
never returns. -/
def close (s : ComBase) : CloseResult :=
  let s1 : ComBase := { s with terminate_receiver_thread_ := true }
  if s1.receiver_thread_running_ then
    { returned := false, state := s1, calls := [] }
  else if !isOpen s1 then
    { returned := true, state := s1, calls := [] }
  else
    { returned := true, state := s1
      calls := [Call.epoll_ctl_del s1.epoll_fd_ s1.socket_fd_,
                Call.close s1.epoll_fd_, Call.close s1.socket_fd_] }

/-- Outcome of one `recv(socket_fd_, &rx_frame, sizeof(rx_frame), MSG_DONTWAIT)`. -/
inductive RecvResult where
  /-- the call returned -1 with this `errno` -/
  | error (errno : Nat)
  /-- the call returned `bytes.length` and copied `bytes` to the start of the buffer -/
  | data (bytes : List Nat)
  deriving DecidableEq

/-- One `epoll_event` reported by `epoll_wait`: its `data.fd`, and the outcome the
`recv` has if the loop issues it for this event. -/
structure Event where
  fd : Int
  read : RecvResult
  deriving DecidableEq

/-- What happens next to a running receive loop. -/
inductive LoopInput where
  /-- another thread stores true to `terminate_receiver_thread_` -/
  | stop
  /-- `epoll_wait` returns -1 -/
  | wait_error (errno : Nat)
  /-- `epoll_wait` returns `events.length` and fills `events_` with `events` -/
  | ready (events : List Event)
  deriving DecidableEq

/-- The way a run of `receiver_thread_` ended. -/
inductive Exit where
  /-- the loop condition read `terminate_receiver_thread_` true -/
  | stopped
  /-- `return` after `epoll_wait` returned -1 -/
  | wait_failed
  /-- `return` after `recv` returned -1 -/
  | read_failed
  /-- the empty `reception_handler_` was invoked (`boost::bad_function_call`) -/
  | bad_call
  deriving DecidableEq

/-- State of a run of `receiver_thread_`; `exit = none` while the thread is still
inside the loop (blocked in `epoll_wait`). -/
structure LoopResult where
  state : ComBase
  rx_frame : Frame
  calls : List Call
  exit : Option Exit
  deriving DecidableEq

/-- Contents of `rx_frame` after a `recv` that copied `bytes` into it; `recv`
copies at most `sizeof(rx_frame)` bytes. -/
def recvInto (frameSize : Nat) (rx_frame : Frame) (bytes : List Nat) : Frame :=
  bytes.take frameSize ++ rx_frame.drop (bytes.take frameSize).length

/-- The `for` loop over the reported events.  Returns the buffer, the calls
issued, and the exit taken if the function returned from inside the loop. -/
def forEvents (frameSize : Nat) (s : ComBase) :
    Frame → List Event → Frame × List Call × Option Exit
  | rx_frame, [] => (rx_frame, [], none)
  | rx_frame, e :: es =>
    if e.fd = s.socket_fd_ then
      match e.read with
      | RecvResult.error _ => (rx_frame, [Call.recv s.socket_fd_], some Exit.read_failed)
      | RecvResult.data bytes =>
        let rx1 := recvInto frameSize rx_frame bytes
        match s.reception_handler_ with
        | none => (rx1, [Call.recv s.socket_fd_], some Exit.bad_call)
        | some h =>
          let r := forEvents frameSize s rx1 es
          (r.1, Call.recv s.socket_fd_ :: Call.handler h rx1 :: r.2.1, r.2.2)
    else forEvents frameSize s rx_frame es

/-- The `while (!terminate_receiver_thread_)` loop on a script of inputs. -/
def receive_loop (frameSize : Nat) : ComBase → Frame → List LoopInput → LoopResult
  | s, rx_frame, [] =>
    if s.terminate_receiver_thread_ then
      { state := s, rx_frame := rx_frame, calls := [], exit := some Exit.stopped }
    else
      { state := s, rx_frame := rx_frame, calls := [], exit := none }
  | s, rx_frame, i :: rest =>
    if s.terminate_receiver_thread_ then
      { state := s, rx_frame := rx_frame, calls := [], exit := some Exit.stopped }
    else
      match i with
      | LoopInput.stop =>
        receive_loop frameSize { s with terminate_receiver_thread_ := true } rx_frame rest
      | LoopInput.wait_error _ =>
        { state := s, rx_frame := rx_frame, calls := [Call.epoll_wait s.epoll_fd_]
          exit := some Exit.wait_failed }
      | LoopInput.ready events =>
        let r := forEvents frameSize s rx_frame (events.take MAX_EVENTS)
        match r.2.2 with
        | some x =>
          { state := s, rx_frame := r.1, calls := Call.epoll_wait s.epoll_fd_ :: r.2.1
            exit := some x }
        | none =>
          let k := receive_loop frameSize s r.1 rest
          { k with calls := Call.epoll_wait s.epoll_fd_ :: (r.2.1 ++ k.calls) }

/-- Member `receiver_thread_`: `rx_frame` is value-initialised, the running flag
is stored true, then the loop runs. -/
def receiver_thread_ (frameSize : Nat) (s : ComBase) (script : List LoopInput) : LoopResult :=
  receive_loop frameSize { s with receiver_thread_running_ := true }
    (List.replicate frameSize 0) script

/-- Frames handed to the handler, in call order. -/
def handlerFrames : List Call → List Frame
  | [] => []
  | Call.handler _ f :: cs => f :: handlerFrames cs
  | _ :: cs => handlerFrames cs


/-! ## Caller and receiver thread together -/

/-- The object together with its threads.  `caller` tells whether the calling
thread can still issue member calls: it cannot once an `open()` has called
`std::terminate`, nor while it spins in a `close()` that does not return.
`started` counts the receiver threads constructed, `entered` those that have
executed the store `receiver_thread_running_ = true`. -/
structure Sys where
  com : ComBase
  caller : Bool
  started : Nat
  entered : Nat
  deriving DecidableEq

/-- One atomic step of the caller or of a receiver thread. -/
inductive Action where
  | open_ (env : OpenEnv)
  | close
  | setInterfaceName (interface : String)
  | passRecptionHandler (reception_handler : Option Handler)
  /-- a constructed thread executes `receiver_thread_running_ = true` -/
  | loop_entry
  /-- a thread executes a step of the loop body (`epoll_wait`, `recv`, the handler
  call); these store to no data member -/
  | loop_body
  deriving DecidableEq

/-- A newly constructed object; `reception_handler = none` for the one-argument
constructor. -/
def Sys.init (interface : String) (reception_handler : Option Handler) : Sys :=
  { com := constructWithHandler interface reception_handler, caller := true
    started := 0, entered := 0 }

/-- Effect of one step, `none` when the step cannot be taken. -/
def Sys.step (σ : Sys) : Action → Option Sys
  | Action.open_ env =>
    if σ.caller then
      some { com := (Sp2Hw.open_ σ.com env).state
             caller := (Sp2Hw.open_ σ.com env).ret.isSome
             started := if (Sp2Hw.open_ σ.com env).ret.isSome then σ.started else σ.started + 1
             entered := σ.entered }
    else none
  | Action.close =>
    if σ.caller then
      some { σ with com := (Sp2Hw.close σ.com).state, caller := (Sp2Hw.close σ.com).returned }
    else none
  | Action.setInterfaceName interface =>
    if σ.caller then some { σ with com := Sp2Hw.setInterfaceName σ.com interface } else none
  | Action.passRecptionHandler h =>
    if σ.caller then some { σ with com := Sp2Hw.passRecptionHandler σ.com h } else none
  | Action.loop_entry =>
    if σ.entered < σ.started then
      some { σ with com := { σ.com with receiver_thread_running_ := true }
                    entered := σ.entered + 1 }
    else none
  | Action.loop_body => if 0 < σ.entered then some σ else none

/-- State after a sequence of steps, `none` when some step cannot be taken. -/
def Sys.exec : Sys → List Action → Option Sys
  | σ, [] => some σ
  | σ, a :: as =>
    match σ.step a with
    | none => none
    | some τ => Sys.exec τ as

/-! ## Delivery, as the specification words it -/

/-- Outcomes of the reads issued by one iteration: one per reported event whose
descriptor is the socket, in event order. -/
def socketReads (fd : Int) (events : List Event) : List RecvResult :=
  ((events.take MAX_EVENTS).filter (fun e => decide (e.fd = fd))).map Event.read

/-- Outcomes of the reads scripted before the first stop request or failed wait. -/
def readsBeforeStop (fd : Int) : List LoopInput → List RecvResult
  | [] => []
  | LoopInput.stop :: _ => []
  | LoopInput.wait_error _ :: _ => []
  | LoopInput.ready events :: rest => socketReads fd events ++ readsBeforeStop fd rest

/-- Byte strings of the reads that precede the first read returning -1. -/
def readsBeforeError : List RecvResult → List (List Nat)
  | [] => []
  | RecvResult.error _ :: _ => []
  | RecvResult.data bytes :: rs => bytes :: readsBeforeError rs

/-- Successfully read frames: the reads that returned a whole frame of
`frameSize` bytes. -/
def wholeFrames (frameSize : Nat) (reads : List (List Nat)) : List Frame :=
  (reads.filter (fun b => decide (frameSize ≤ b.length))).map (List.take frameSize)

/-- Contents of the frame buffer after each of a sequence of reads. -/
def buffersAfter (frameSize : Nat) : Frame → List (List Nat) → List Frame
  | _, [] => []
  | rx_frame, b :: bs =>
    recvInto frameSize rx_frame b :: buffersAfter frameSize (recvInto frameSize rx_frame b) bs

/-- Whether some read of the list returned -1. -/
def hasError : List RecvResult → Bool
  | [] => false
  | RecvResult.error _ :: _ => true
  | RecvResult.data _ :: rs => hasError rs

/-- Contents of the frame buffer after all of a sequence of reads. -/
def finalBuffer (frameSize : Nat) : Frame → List (List Nat) → Frame
  | rx_frame, [] => rx_frame
  | rx_frame, b :: bs => finalBuffer frameSize (recvInto frameSize rx_frame b) bs

/-! ## Sample objects and outcomes -/

/-- An object constructed with interface `can0` and handler 1. -/
def sample : ComBase := constructWithHandler "can0" (some 1)

/-- All calls of `open()` succeed: socket 3, epoll instance 4. -/
def envOk : OpenEnv :=
  { sock_fd := 3, sock_ok := true, epoll_create1 := 4, epoll_ctl := 0, empty_eq_null := true }

/-- As `envOk`, with the comparison of an empty handler to `nullptr` false. -/
def envNullMissed : OpenEnv :=
  { sock_fd := 3, sock_ok := true, epoll_create1 := 4, epoll_ctl := 0, empty_eq_null := false }

/-- All calls of a second `open()` succeed: socket 5, epoll instance 6. -/
def envOk2 : OpenEnv :=
  { sock_fd := 5, sock_ok := true, epoll_create1 := 6, epoll_ctl := 0, empty_eq_null := true }

/-- The socket opens, `epoll_create1` succeeds, `epoll_ctl` ADD fails. -/
def envCtlFails : OpenEnv :=
  { sock_fd := 3, sock_ok := true, epoll_create1 := 4, epoll_ctl := -1, empty_eq_null := true }

/-- The socket opens, `epoll_create1` fails. -/
def envCreateFails : OpenEnv :=
  { sock_fd := 3, sock_ok := true, epoll_create1 := -1, epoll_ctl := 0, empty_eq_null := true }

/-- A run: the handler is set, a first open fails in `epoll_ctl`, close returns,
the name is changed, a second open constructs the loop, the loop stores the
running flag and takes a step. -/
def sampleTrace : List Action :=
  [Action.passRecptionHandler (some 1), Action.open_ envCtlFails, Action.close,
   Action.setInterfaceName "can1", Action.open_ envOk2, Action.loop_entry, Action.loop_body]

/-- The state `sampleTrace` ends in. -/
def sampleEnd : Sys :=
  { com := { socket_fd_ := 5, interface_name_ := "can1", epoll_fd_ := 6
             receiver_thread_running_ := true
             terminate_receiver_thread_ := true
             reception_handler_ := some 1 }
    caller := false, started := 1, entered := 1 }

/-! ## Basic facts -/

theorem open_flags (s : ComBase) (env : OpenEnv) :
    (open_ s env).state.receiver_thread_running_ = s.receiver_thread_running_ ∧
    (open_ s env).state.terminate_receiver_thread_ = s.terminate_receiver_thread_ ∧
    (open_ s env).state.reception_handler_ = s.reception_handler_ ∧
    (open_ s env).state.interface_name_ = s.interface_name_ := by
  unfold open_ openSocket openEpoll
  dsimp only
  split_ifs <;> simp

theorem open_terminates (s : ComBase) (env : OpenEnv) (h : (open_ s env).ret = none) :
    (open_ s env).state.socket_fd_ ≠ -1 ∧ (open_ s env).state.epoll_fd_ ≠ -1 := by
  unfold open_ openSocket openEpoll at h ⊢
  dsimp only at h ⊢
  split_ifs at h ⊢ <;> simp_all

theorem open_no_handler (s : ComBase) (env : OpenEnv) (h : s.reception_handler_ = none)
    (hn : env.empty_eq_null = true) :
    open_ s env = { ret := some false, state := s, calls := [] } := by
  unfold open_ handlerIsNull
  simp [h, hn]

theorem close_keeps (s : ComBase) :
    (close s).state = { s with terminate_receiver_thread_ := true } := by
  unfold close
  dsimp only
  split_ifs <;> rfl

/-! ## open without a handler -/

/-- C1: after an `open()` that failed in `epoll_ctl` (descriptors 3 and 4 left
in the members) and a `passRecptionHandler` with an empty callable, no handler
is registered.  If the test against `nullptr` is true for the empty handler,
`open()` returns false, issues no call and changes nothing, and `isOpen()` is
true after the call.  If that test is false, `open()` goes on to `openSocket`
and the epoll calls. -/
theorem refused_open_on_leaked_descriptors :
    (open_ sample envCtlFails).ret = some false ∧
    (passRecptionHandler (open_ sample envCtlFails).state none).reception_handler_ = none ∧
    (open_ (passRecptionHandler (open_ sample envCtlFails).state none) envOk).ret
      = some false ∧
    (open_ (passRecptionHandler (open_ sample envCtlFails).state none) envOk).calls = [] ∧
    (open_ (passRecptionHandler (open_ sample envCtlFails).state none) envOk).state
      = passRecptionHandler (open_ sample envCtlFails).state none ∧
    isOpen (open_ (passRecptionHandler (open_ sample envCtlFails).state none) envOk).state
      = true ∧
    (open_ (passRecptionHandler (open_ sample envCtlFails).state none) envNullMissed).calls
      = [Call.openSocket, Call.epoll_create1, Call.epoll_ctl_add 4 3, Call.thread_start,
         Call.terminate] := by
  decide

/-! ## open followed by close -/

/-- C3: with a handler registered, when `epoll_ctl` ADD fails `open()` returns
false and starts no thread, but issues no `::close`: socket 3 and epoll
instance 4 stay in the members and `isOpen()` is true; when `epoll_create1`
fails the socket 3 is likewise kept and never closed. -/
theorem open_failure_keeps_descriptors :
    (open_ sample envCtlFails).ret = some false ∧
    (open_ sample envCtlFails).calls
      = [Call.openSocket, Call.epoll_create1, Call.epoll_ctl_add 4 3] ∧
    (open_ sample envCtlFails).state.socket_fd_ = 3 ∧
    (open_ sample envCtlFails).state.epoll_fd_ = 4 ∧
    isOpen (open_ sample envCtlFails).state = true ∧
    (open_ sample envCreateFails).ret = some false ∧
    (open_ sample envCreateFails).calls = [Call.openSocket, Call.epoll_create1] ∧
    (open_ sample envCreateFails).state.socket_fd_ = 3 := by
  decide

/-! ## close on a closed object -/

/-- C4: on a never-opened object `close()` returns, issues no call and
stores the stop flag only; on an object whose `open()` failed in `epoll_ctl` and
whose previous `close()` returned, the second `close()` issues the
deregistration and both `::close` calls again, on the descriptor numbers
already released. -/
theorem close_twice_releases_twice :
    (close (construct "can0")).returned = true ∧
    (close (construct "can0")).calls = [] ∧
    (close (construct "can0")).state
      = { construct "can0" with terminate_receiver_thread_ := true } ∧
    (open_ sample envCtlFails).ret = some false ∧
    (close (open_ sample envCtlFails).state).returned = true ∧
    (close (open_ sample envCtlFails).state).calls
      = [Call.epoll_ctl_del 4 3, Call.close 4, Call.close 3] ∧
    (close (close (open_ sample envCtlFails).state).state).returned = true ∧
    (close (close (open_ sample envCtlFails).state).state).calls
      = [Call.epoll_ctl_del 4 3, Call.close 4, Call.close 3] := by
  decide

/-! ## destruction -/

theorem receive_loop_members (n : Nat) (script : List LoopInput) :
    ∀ (s : ComBase) (rx : Frame),
      (receive_loop n s rx script).state.receiver_thread_running_ = s.receiver_thread_running_ ∧
      (receive_loop n s rx script).state.socket_fd_ = s.socket_fd_ ∧
      (receive_loop n s rx script).state.epoll_fd_ = s.epoll_fd_ ∧
      (receive_loop n s rx script).state.reception_handler_ = s.reception_handler_ ∧
      (receive_loop n s rx script).state.interface_name_ = s.interface_name_ := by
  induction script with
  | nil =>
    intro s rx
    unfold receive_loop
    split_ifs <;> simp
  | cons i rest ih =>
    intro s rx
    unfold receive_loop
    split_ifs
    · simp
    · cases i with
      | stop => simpa using ih { s with terminate_receiver_thread_ := true } rx
      | wait_error e => simp
      | ready events =>
        dsimp only
        split
        · simp
        · simpa using ih s _

theorem handlerFrames_append (a b : List Call) :
    handlerFrames (a ++ b) = handlerFrames a ++ handlerFrames b := by
  induction a with
  | nil => rfl
  | cons c cs ih => cases c <;> simp [handlerFrames, ih]

theorem readsBeforeError_append (a b : List RecvResult) :
    readsBeforeError (a ++ b)
      = if hasError a then readsBeforeError a else readsBeforeError a ++ readsBeforeError b := by
  induction a with
  | nil => simp [readsBeforeError, hasError]
  | cons r rs ih =>
    cases r with
    | error e => simp [readsBeforeError, hasError]
    | data bytes =>
      have e : RecvResult.data bytes :: rs ++ b = RecvResult.data bytes :: (rs ++ b) := rfl
      rw [e]
      simp only [readsBeforeError, hasError, ih]
      split_ifs <;> rfl

theorem buffersAfter_append (n : Nat) (a b : List (List Nat)) :
    ∀ rx : Frame, buffersAfter n rx (a ++ b)
      = buffersAfter n rx a ++ buffersAfter n (finalBuffer n rx a) b := by
  induction a with
  | nil => intro rx; rfl
  | cons x xs ih => intro rx; simp [buffersAfter, finalBuffer, ih]

theorem forEvents_reads (n : Nat) (s : ComBase) (h : Handler)
    (hh : s.reception_handler_ = some h) (events : List Event) :
    ∀ rx : Frame,
      handlerFrames (forEvents n s rx events).2.1
        = buffersAfter n rx (readsBeforeError
            ((events.filter (fun e => decide (e.fd = s.socket_fd_))).map Event.read)) ∧
      (forEvents n s rx events).2.2
        = (if hasError ((events.filter (fun e => decide (e.fd = s.socket_fd_))).map Event.read)
            then some Exit.read_failed else none) ∧
      (forEvents n s rx events).1
        = finalBuffer n rx (readsBeforeError
            ((events.filter (fun e => decide (e.fd = s.socket_fd_))).map Event.read)) := by
  induction events with
  | nil => intro rx; simp [forEvents, handlerFrames, buffersAfter, readsBeforeError, hasError,
      finalBuffer]
  | cons e es ih =>
    intro rx
    unfold forEvents
    by_cases hfd : e.fd = s.socket_fd_
    · simp only [hfd, if_true, List.filter_cons, decide_True, List.map_cons]
      cases hr : e.read with
      | error errno =>
        simp [handlerFrames, buffersAfter, readsBeforeError, hasError, finalBuffer]
      | data bytes =>
        simp only [hh, handlerFrames, buffersAfter, readsBeforeError, hasError, finalBuffer]
        obtain ⟨h1, h2, h3⟩ := ih (recvInto n rx bytes)
        exact ⟨by rw [h1], h2, h3⟩
    · simp only [hfd, if_false, List.filter_cons, decide_False]
      exact ih rx

theorem receive_loop_frames (n : Nat) (h : Handler) (script : List LoopInput) :
    ∀ (s : ComBase) (rx : Frame), s.reception_handler_ = some h →
      handlerFrames (receive_loop n s rx script).calls
        = if s.terminate_receiver_thread_ then []
          else buffersAfter n rx (readsBeforeError (readsBeforeStop s.socket_fd_ script)) := by
  induction script with
  | nil =>
    intro s rx _
    unfold receive_loop
    split_ifs <;> simp [handlerFrames, readsBeforeStop, readsBeforeError, buffersAfter]
  | cons i rest ih =>
    intro s rx hh
    unfold receive_loop
    by_cases ht : s.terminate_receiver_thread_ = true
    · simp [ht, handlerFrames]
    · have hf : s.terminate_receiver_thread_ = false := by simpa using ht
      simp only [hf, Bool.false_eq_true, if_false]
      cases i with
      | stop =>
        have := ih { s with terminate_receiver_thread_ := true } rx hh
        simpa [readsBeforeStop, readsBeforeError, buffersAfter] using this
      | wait_error e => simp [handlerFrames, readsBeforeStop, readsBeforeError, buffersAfter]
      | ready events =>
        obtain ⟨h1, h2, h3⟩ := forEvents_reads n s h hh (events.take MAX_EVENTS) rx
        have ih1 := ih s (forEvents n s rx (events.take MAX_EVENTS)).1 hh
        simp only [hf, Bool.false_eq_true, if_false] at ih1
        simp only [readsBeforeStop, socketReads, readsBeforeError_append]
        by_cases he : hasError (((events.take MAX_EVENTS).filter
            (fun e => decide (e.fd = s.socket_fd_))).map Event.read) = true
        · rw [he] at h2
          simp only [if_true] at h2
          simp only [h2, he, if_true, handlerFrames, h1]
        · rw [if_neg he] at h2
          rw [h3] at ih1
          simp only [h2, if_neg he, handlerFrames, handlerFrames_append, h1, h3, ih1,
            buffersAfter_append]

theorem buffersAfter_whole (n : Nat) (reads : List (List Nat)) :
    ∀ rx : Frame, rx.length = n → (∀ b ∈ reads, b.length = n) → buffersAfter n rx reads = reads := by
  induction reads with
  | nil => intro rx _ _; rfl
  | cons b bs ih =>
    intro rx hrx hall
    have hb : b.length = n := hall b (List.mem_cons_self b bs)
    have e : recvInto n rx b = b := by
      unfold recvInto
      rw [List.take_of_length_le (le_of_eq hb), hb, List.drop_of_length_le (le_of_eq hrx)]
      simp
    simp only [buffersAfter, e]
    rw [ih b hb (fun x hx => hall x (List.mem_cons_of_mem b hx))]

theorem forEvents_skip (n : Nat) (s : ComBase) (rx : Frame) (e : Event) (es : List Event)
    (hfd : ¬ e.fd = s.socket_fd_) :
    forEvents n s rx (e :: es) = forEvents n s rx es := by
  rw [forEvents, if_neg hfd]

theorem forEvents_error (n : Nat) (s : ComBase) (rx : Frame) (e : Event) (es : List Event)
    (errno : Nat) (hfd : e.fd = s.socket_fd_) (hr : e.read = RecvResult.error errno) :
    forEvents n s rx (e :: es) = (rx, [Call.recv s.socket_fd_], some Exit.read_failed) := by
  rw [forEvents, if_pos hfd, hr]

theorem forEvents_bad_call (n : Nat) (s : ComBase) (rx : Frame) (e : Event) (es : List Event)
    (bytes : List Nat) (hfd : e.fd = s.socket_fd_) (hr : e.read = RecvResult.data bytes)
    (hh : s.reception_handler_ = none) :
    forEvents n s rx (e :: es)
      = (recvInto n rx bytes, [Call.recv s.socket_fd_], some Exit.bad_call) := by
  rw [forEvents, if_pos hfd, hr]
  simp only [hh]

theorem forEvents_data (n : Nat) (s : ComBase) (rx : Frame) (e : Event) (es : List Event)
    (bytes : List Nat) (h : Handler) (hfd : e.fd = s.socket_fd_)
    (hr : e.read = RecvResult.data bytes) (hh : s.reception_handler_ = some h) :
    forEvents n s rx (e :: es)
      = ((forEvents n s (recvInto n rx bytes) es).1,
         Call.recv s.socket_fd_ :: Call.handler h (recvInto n rx bytes)
           :: (forEvents n s (recvInto n rx bytes) es).2.1,
         (forEvents n s (recvInto n rx bytes) es).2.2) := by
  rw [forEvents, if_pos hfd, hr]
  simp only [hh]

theorem forEvents_append (n : Nat) (s : ComBase) (a b : List Event) :
    ∀ rx : Frame, (forEvents n s rx a).2.2 = none →
      forEvents n s rx (a ++ b)
        = ((forEvents n s (forEvents n s rx a).1 b).1,
           (forEvents n s rx a).2.1 ++ (forEvents n s (forEvents n s rx a).1 b).2.1,
           (forEvents n s (forEvents n s rx a).1 b).2.2) := by
  induction a with
  | nil => intro rx _; simp [forEvents]
  | cons e es ih =>
    intro rx hx
    have ec : e :: es ++ b = e :: (es ++ b) := rfl
    rw [ec]
    by_cases hfd : e.fd = s.socket_fd_
    · cases hr : e.read with
      | error errno =>
        rw [forEvents_error n s rx e es errno hfd hr] at hx
        simp at hx
      | data bytes =>
        cases hh : s.reception_handler_ with
        | none =>
          rw [forEvents_bad_call n s rx e es bytes hfd hr hh] at hx
          simp at hx
        | some h =>
          rw [forEvents_data n s rx e es bytes h hfd hr hh] at hx ⊢
          rw [forEvents_data n s rx e (es ++ b) bytes h hfd hr hh, ih _ hx]
          simp
    · rw [forEvents_skip n s rx e es hfd] at hx ⊢
      rw [forEvents_skip n s rx e (es ++ b) hfd]
      exact ih rx hx

/-! ## Delivery to the handler -/

/-- C6 (as amended): for every script fed to one run of the receive loop
with a handler registered, the frames passed to the handler are exactly the
contents of the frame buffer after each read that did not return -1 (whole
frame or not), one invocation per such read and in read order, restricted to
the reads before the first wait or read returning -1 or the observed stop
request; nothing is delivered after a read error.  When each of those reads
returned a whole frame, the frames delivered are exactly the frames read. -/
theorem handler_frames_are_read_buffers (n : Nat) (s : ComBase) (h : Handler)
    (script : List LoopInput) (hh : s.reception_handler_ = some h) :
    handlerFrames (receiver_thread_ n s script).calls
      = (if s.terminate_receiver_thread_ then []
         else buffersAfter n (List.replicate n 0)
           (readsBeforeError (readsBeforeStop s.socket_fd_ script))) ∧
    ((∀ b ∈ readsBeforeError (readsBeforeStop s.socket_fd_ script), b.length = n) →
      handlerFrames (receiver_thread_ n s script).calls
        = (if s.terminate_receiver_thread_ then []
           else readsBeforeError (readsBeforeStop s.socket_fd_ script))) := by
  have key := receive_loop_frames n h script { s with receiver_thread_running_ := true }
    (List.replicate n 0) hh
  refine ⟨key, fun hall => ?_⟩
  unfold receiver_thread_
  rw [key]
  dsimp only
  rw [buffersAfter_whole n _ _ (List.length_replicate n 0) hall]

/-- Instance of C6: whole frames [1,2], [3,4], [5,6] on socket 3, an event
for another descriptor, then a read error; the frame scripted after the error
is not delivered. -/
theorem handler_frames_are_read_buffers_witness :
    (open_ sample envOk).state.reception_handler_ = some 1 ∧
    (∀ b ∈ readsBeforeError (readsBeforeStop (open_ sample envOk).state.socket_fd_
        [LoopInput.ready [⟨3, RecvResult.data [1, 2]⟩, ⟨9, RecvResult.data [9, 9]⟩,
           ⟨3, RecvResult.data [3, 4]⟩],
         LoopInput.ready [⟨3, RecvResult.data [5, 6]⟩, ⟨3, RecvResult.error ECONNRESET⟩],
         LoopInput.ready [⟨3, RecvResult.data [7, 8]⟩]]), b.length = 2) ∧
    handlerFrames (receiver_thread_ 2 (open_ sample envOk).state
        [LoopInput.ready [⟨3, RecvResult.data [1, 2]⟩, ⟨9, RecvResult.data [9, 9]⟩,
           ⟨3, RecvResult.data [3, 4]⟩],
         LoopInput.ready [⟨3, RecvResult.data [5, 6]⟩, ⟨3, RecvResult.error ECONNRESET⟩],
         LoopInput.ready [⟨3, RecvResult.data [7, 8]⟩]]).calls
      = [[1, 2], [3, 4], [5, 6]] :=
  ⟨by decide, by decide,
   ((handler_frames_are_read_buffers 2 (open_ sample envOk).state 1 _ (by decide)).2
      (by decide)).trans (by decide)⟩

/-- C6 (as stated) fails: a read returning 0 bytes is not a whole frame, yet
the handler is invoked for it, with the zero-initialised buffer; a read
returning 1 of 2 bytes is delivered as well. -/
theorem handler_called_on_short_read :
    wholeFrames 2 (readsBeforeError (readsBeforeStop 3
        [LoopInput.ready [⟨3, RecvResult.data []⟩, ⟨3, RecvResult.data [7]⟩]])) = [] ∧
    handlerFrames (receiver_thread_ 2 (open_ sample envOk).state
        [LoopInput.ready [⟨3, RecvResult.data []⟩, ⟨3, RecvResult.data [7]⟩]]).calls
      = [[0, 0], [7, 0]] := by
  decide

/-! ## Exit of the loop -/

/-- C7: no path through `receiver_thread_` stores false to the running flag:
after every run the flag is true, in particular after the exit on a stop
request, on a failed wait and on a failed read. -/
theorem loop_exit_leaves_running_true :
    (∀ (n : Nat) (s : ComBase) (script : List LoopInput),
      (receiver_thread_ n s script).state.receiver_thread_running_ = true) ∧
    (receiver_thread_ 2 (open_ sample envOk).state [LoopInput.stop]).exit = some Exit.stopped ∧
    (receiver_thread_ 2 (open_ sample envOk).state
      [LoopInput.stop]).state.receiver_thread_running_ = true ∧
    (receiver_thread_ 2 (open_ sample envOk).state [LoopInput.wait_error ECONNRESET]).exit
      = some Exit.wait_failed ∧
    (receiver_thread_ 2 (open_ sample envOk).state
      [LoopInput.wait_error ECONNRESET]).state.receiver_thread_running_ = true ∧
    (receiver_thread_ 2 (open_ sample envOk).state
      [LoopInput.ready [⟨3, RecvResult.error ECONNRESET⟩]]).exit = some Exit.read_failed ∧
    (receiver_thread_ 2 (open_ sample envOk).state
      [LoopInput.ready [⟨3, RecvResult.error ECONNRESET⟩]]).state.receiver_thread_running_ = true := by
  refine ⟨fun n s script => ?_, by decide, by decide, by decide, by decide, by decide, by decide⟩
  unfold receiver_thread_
  rw [(receive_loop_members n script _ _).1]

/-! ## Reopening -/

/-- C9 (as amended): in the receive loop every read that returns -1 ends the
loop, whatever `errno` is, would-block included: when the events before it in
the iteration were handled without leaving the loop, the run exits through the
read-error return, the `recv` is the last call issued, and the handler is
invoked neither for that read nor afterwards. -/
theorem read_error_ends_loop (n : Nat) (s : ComBase) (rx : Frame) (pre post : List Event)
    (errno : Nat) (rest : List LoopInput)
    (ht : s.terminate_receiver_thread_ = false)
    (hlen : pre.length < MAX_EVENTS)
    (hpre : (forEvents n s rx pre).2.2 = none) :
    (receive_loop n s rx
      (LoopInput.ready (pre ++ ⟨s.socket_fd_, RecvResult.error errno⟩ :: post) :: rest)).exit
      = some Exit.read_failed ∧
    (receive_loop n s rx
      (LoopInput.ready (pre ++ ⟨s.socket_fd_, RecvResult.error errno⟩ :: post) :: rest)).calls
      = Call.epoll_wait s.epoll_fd_ :: ((forEvents n s rx pre).2.1 ++ [Call.recv s.socket_fd_]) := by
  have htake : (pre ++ ⟨s.socket_fd_, RecvResult.error errno⟩ :: post).take MAX_EVENTS
      = pre ++ (⟨s.socket_fd_, RecvResult.error errno⟩ ::
          post.take (MAX_EVENTS - pre.length - 1)) := by
    rw [List.take_append_eq_append_take, List.take_of_length_le (le_of_lt hlen)]
    obtain ⟨k, hk⟩ : ∃ k, MAX_EVENTS - pre.length = k + 1 := ⟨MAX_EVENTS - pre.length - 1, by omega⟩
    rw [hk, List.take_succ_cons]
    simp
  have hfor := forEvents_append n s pre
    (⟨s.socket_fd_, RecvResult.error errno⟩ :: post.take (MAX_EVENTS - pre.length - 1)) rx hpre
  have herr : ∀ rx1 : Frame, forEvents n s rx1
      (⟨s.socket_fd_, RecvResult.error errno⟩ :: post.take (MAX_EVENTS - pre.length - 1))
      = (rx1, [Call.recv s.socket_fd_], some Exit.read_failed) := by
    intro rx1
    simp [forEvents]
  rw [herr] at hfor
  unfold receive_loop
  simp only [ht, Bool.false_eq_true, if_false, htake, hfor]
  simp

/-- Instance of C9: a would-block read after one delivered frame. -/
theorem read_error_ends_loop_witness :
    (open_ sample envOk).state.terminate_receiver_thread_ = false ∧
    [(⟨3, RecvResult.data [1, 2]⟩ : Event)].length < MAX_EVENTS ∧
    (forEvents 2 (open_ sample envOk).state [0, 0] [⟨3, RecvResult.data [1, 2]⟩]).2.2 = none ∧
    (receive_loop 2 (open_ sample envOk).state [0, 0]
      (LoopInput.ready ([⟨3, RecvResult.data [1, 2]⟩]
        ++ ⟨(open_ sample envOk).state.socket_fd_, RecvResult.error EAGAIN⟩
          :: [⟨3, RecvResult.data [3, 4]⟩]) :: [LoopInput.ready [⟨3, RecvResult.data [5, 6]⟩]])).exit
      = some Exit.read_failed :=
  ⟨by decide, by decide, by decide,
   (read_error_ends_loop 2 (open_ sample envOk).state [0, 0] [⟨3, RecvResult.data [1, 2]⟩]
      [⟨3, RecvResult.data [3, 4]⟩] EAGAIN [LoopInput.ready [⟨3, RecvResult.data [5, 6]⟩]]
      (by decide) (by decide) (by decide)).1⟩

/-- C9 (as stated) fails: a read returning -1 with `EAGAIN` is not taken as a
spurious wake; the loop returns, issues no further wait, and the whole frame
readable at the next wait is never delivered. -/
theorem would_block_ends_loop :
    (receiver_thread_ 2 (open_ sample envOk).state
      [LoopInput.ready [⟨3, RecvResult.error EAGAIN⟩],
       LoopInput.ready [⟨3, RecvResult.data [1, 2]⟩]]).exit = some Exit.read_failed ∧
    (receiver_thread_ 2 (open_ sample envOk).state
      [LoopInput.ready [⟨3, RecvResult.error EAGAIN⟩],
       LoopInput.ready [⟨3, RecvResult.data [1, 2]⟩]]).calls
      = [Call.epoll_wait 4, Call.recv 3] := by
  decide

/-! ## The running flag and the descriptors -/

theorem step_keeps_invariant (σ τ : Sys) (a : Action) (hs : σ.step a = some τ)
    (h1 : 0 < σ.started →
      σ.com.socket_fd_ ≠ -1 ∧ σ.com.epoll_fd_ ≠ -1 ∧ σ.caller = false)
    (h2 : σ.com.receiver_thread_running_ = true → 0 < σ.started) :
    (0 < τ.started → τ.com.socket_fd_ ≠ -1 ∧ τ.com.epoll_fd_ ≠ -1 ∧ τ.caller = false) ∧
    (τ.com.receiver_thread_running_ = true → 0 < τ.started) := by
  have hlive : σ.caller = true → σ.started = 0 := by
    intro hc
    by_contra hne
    have := (h1 (Nat.pos_of_ne_zero hne)).2.2
    rw [hc] at this
    exact Bool.noConfusion this
  cases a with
  | open_ env =>
    by_cases hc : σ.caller = true
    · have h0 := hlive hc
      have hrun := (open_flags σ.com env).1
      simp only [Sys.step, hc, if_true, Option.some.injEq] at hs
      subst hs
      cases hr : (open_ σ.com env).ret with
      | none =>
        have hfd := open_terminates σ.com env hr
        refine ⟨fun _ => ⟨hfd.1, hfd.2, ?_⟩, fun _ => ?_⟩
        · simp
        · simp
      | some b =>
        refine ⟨fun hpos => ?_, fun hrn => ?_⟩
        · simp [h0] at hpos
        · have := h2 (hrun ▸ hrn)
          omega
    · simp [Sys.step, hc] at hs
  | close =>
    simp only [Sys.step] at hs
    split_ifs at hs with hc
    have h0 := hlive hc
    simp only [Option.some.injEq] at hs
    subst hs
    simp only [close_keeps, h0]
    refine ⟨fun hpos => absurd hpos (lt_irrefl 0), fun hrn => ?_⟩
    have := h2 hrn
    omega
  | setInterfaceName i =>
    simp only [Sys.step] at hs
    split_ifs at hs with hc
    simp only [Option.some.injEq] at hs
    subst hs
    exact ⟨h1, h2⟩
  | passRecptionHandler hnd =>
    simp only [Sys.step] at hs
    split_ifs at hs with hc
    simp only [Option.some.injEq] at hs
    subst hs
    exact ⟨h1, h2⟩
  | loop_entry =>
    simp only [Sys.step] at hs
    split_ifs at hs with hlt
    simp only [Option.some.injEq] at hs
    subst hs
    exact ⟨h1, fun _ => by simp only; omega⟩
  | loop_body =>
    simp only [Sys.step] at hs
    split_ifs at hs with hlt
    simp only [Option.some.injEq] at hs
    subst hs
    exact ⟨h1, h2⟩

theorem exec_keeps_invariant (acts : List Action) :
    ∀ σ τ : Sys, σ.exec acts = some τ →
      (0 < σ.started →
        σ.com.socket_fd_ ≠ -1 ∧ σ.com.epoll_fd_ ≠ -1 ∧ σ.caller = false) →
      (σ.com.receiver_thread_running_ = true → 0 < σ.started) →
      (0 < τ.started → τ.com.socket_fd_ ≠ -1 ∧ τ.com.epoll_fd_ ≠ -1 ∧ τ.caller = false) ∧
      (τ.com.receiver_thread_running_ = true → 0 < τ.started) := by
  induction acts with
  | nil =>
    intro σ τ he h1 h2
    simp only [Sys.exec, Option.some.injEq] at he
    subst he
    exact ⟨h1, h2⟩
  | cons a as ih =>
    intro σ τ he h1 h2
    simp only [Sys.exec] at he
    cases hs : σ.step a with
    | none => simp [hs] at he
    | some ρ =>
      simp only [hs] at he
      obtain ⟨k1, k2⟩ := step_keeps_invariant σ ρ a hs h1 h2
      exact ih ρ τ he k1 k2

/-- C5: in every state reachable from a newly constructed object by any
sequence of open, close, setInterfaceName, passRecptionHandler and receive-loop
steps, for any outcomes of `openSocket` and of the epoll calls, the running
flag being true implies that neither `socket_fd_` nor `epoll_fd_` is -1. -/
theorem running_implies_descriptors (interface : String) (reception_handler : Option Handler)
    (acts : List Action) (σ : Sys)
    (hreach : (Sys.init interface reception_handler).exec acts = some σ)
    (hrun : σ.com.receiver_thread_running_ = true) :
    σ.com.socket_fd_ ≠ -1 ∧ σ.com.epoll_fd_ ≠ -1 := by
  have inv := exec_keeps_invariant acts (Sys.init interface reception_handler) σ hreach
    (fun h => absurd h (by simp [Sys.init])) (fun h => absurd h (by simp [Sys.init,
      constructWithHandler]))
  exact ⟨(inv.1 (inv.2 hrun)).1, (inv.1 (inv.2 hrun)).2.1⟩

/-- Instance of C5: the handler is set, a first open fails in `epoll_ctl`, close
returns, the name is changed, a second open constructs the loop, and the loop
stores the running flag and takes a step. -/
theorem running_implies_descriptors_witness :
    (Sys.init "can0" none).exec sampleTrace = some sampleEnd ∧
    sampleEnd.com.receiver_thread_running_ = true ∧
    sampleEnd.com.socket_fd_ ≠ -1 ∧ sampleEnd.com.epoll_fd_ ≠ -1 :=
  ⟨by decide, by decide,
   running_implies_descriptors "can0" none sampleTrace sampleEnd (by decide) (by decide)⟩

end Sp2Hw
